import Mathlib

/-!
Verification of the mapget core specification.

The visible repository sources are the Python command-line front end
(libs/pymapget/__main__.py) and an example data source
(examples/python/datasource.py); the core feature/tile data model and the
routing service are provided by the compiled mapget module and are therefore
modelled here from the specification text, as flagged on each definition.
The CLI definitions near the end are translated directly from
libs/pymapget/__main__.py.
-/

namespace Mapget

/-- Modelled from the spec: the datatypes allowed for unique-ID composition
parts, spec section 3 (string, i32, i64, u32, u64, bool); the wire form in
examples/python/datasource.py spells them as strings such as "I64". -/
inductive Datatype where
  | dString
  | dI32
  | dI64
  | dU32
  | dU64
  | dBool
deriving DecidableEq, Repr

/-- Modelled from the spec: a typed scalar value supplied as one identity
part of a composite feature ID. -/
inductive IdScalar where
  | str (s : String)
  | i32 (v : Int)
  | i64 (v : Int)
  | u32 (v : Nat)
  | u64 (v : Nat)
  | boolean (b : Bool)
deriving DecidableEq, Repr

/-- Modelled from the spec: the datatype of a supplied identity-part value. -/
def IdScalar.datatype : IdScalar → Datatype
  | .str _ => .dString
  | .i32 _ => .dI32
  | .i64 _ => .dI64
  | .u32 _ => .dU32
  | .u64 _ => .dU64
  | .boolean _ => .dBool

/-- Modelled from the spec: one declared part of a unique-ID composition,
a (partId, datatype) pair as advertised in the data-source descriptor. -/
structure IdPartDecl where
  partId : String
  datatype : Datatype
deriving DecidableEq, Repr

/-- Modelled from the spec: a feature-type declaration with one or more
unique-ID compositions (each an ordered list of typed named parts). -/
structure FeatureTypeDecl where
  name : String
  uniqueIdCompositions : List (List IdPartDecl)
deriving DecidableEq, Repr

/-- Modelled from the spec: a composite feature ID, holding the map id, the
feature-type name and the ordered list of named, typed part values. -/
structure FeatureId where
  mapId : String
  typeName : String
  parts : List (String × IdScalar)
deriving DecidableEq, Repr

/-- The (name, datatype) key of one declared composition part. -/
def declKey (p : IdPartDecl) : String × Datatype := (p.partId, p.datatype)

/-- The (name, datatype) key of one supplied identity part. -/
def partKey (p : String × IdScalar) : String × Datatype := (p.1, p.2.datatype)

/-- Remove the first occurrence of an element from a list. -/
def eraseFirst {α : Type} [DecidableEq α] : List α → α → List α
  | [], _ => []
  | c :: cs, x => if c = x then cs else c :: eraseFirst cs x

/-- Modelled from the spec: order-insensitive matching of a supplied key list
against a declared key list, consuming one declared part per supplied part;
succeeds exactly when the two lists agree with multiplicity (no missing part,
no extra part, no mismatched type). -/
def keysMatch [DecidableEq α] : List α → List α → Bool
  | comp, [] => comp.isEmpty
  | comp, x :: xs => if x ∈ comp then keysMatch (eraseFirst comp x) xs else false

/-- Modelled from the spec: validate_id of spec section 4.1, succeeds iff the
supplied parts match one declared composition by part name and datatype,
order-insensitively. -/
def validateId (decl : FeatureTypeDecl) (parts : List (String × IdScalar)) : Bool :=
  decl.uniqueIdCompositions.any fun comp => keysMatch (comp.map declKey) (parts.map partKey)

theorem eraseFirst_perm {α : Type} [DecidableEq α] {l : List α} {x : α} (h : x ∈ l) :
    List.Perm l (x :: eraseFirst l x) := by
  induction l with
  | nil => cases h
  | cons c cs ih =>
    by_cases hc : c = x
    · subst hc
      simp [eraseFirst]
    · rcases List.mem_cons.mp h with h1 | h2
      · exact absurd h1.symm hc
      · simp only [eraseFirst, hc, if_false]
        exact ((ih h2).cons c).trans (List.Perm.swap x c _)

theorem keysMatch_iff_perm {α : Type} [DecidableEq α] (a b : List α) :
    keysMatch a b = true ↔ List.Perm a b := by
  induction b generalizing a with
  | nil =>
    simp [keysMatch, List.isEmpty_iff, List.perm_nil]
  | cons x xs ih =>
    simp only [keysMatch]
    by_cases hx : x ∈ a
    · simp only [hx, if_true, ih]
      constructor
      · intro h
        exact ((eraseFirst_perm hx).trans (h.cons x)).symm.symm
      · intro h
        have h2 := (eraseFirst_perm hx).symm.trans h
        exact (List.Perm.cons_inv h2)
    · simp only [hx, if_false, Bool.false_eq_true, false_iff]
      intro h
      exact hx (h.mem_iff.mpr (List.mem_cons_self x xs))

/-- Modelled from the spec: IEEE-754 bit pattern of a floating-point scalar;
serialization carries the bits through unchanged, so no float arithmetic is
modelled. -/
abbrev FloatBits := Nat

mutual
/-- Modelled from the spec: the generic compound value, a tagged union over
null, bool, integer, float, string, composite-ID reference, ordered array and
field-mapping object (spec section 3, Value). -/
inductive Value where
  | vnull
  | vbool (b : Bool)
  | vint (i : Int)
  | vfloat (bits : FloatBits)
  | vstr (s : String)
  | vref (id : FeatureId)
  | varr (elems : ValueArr)
  | vobj (fields : ValueObj)

/-- Modelled from the spec: an ordered sequence of Values. -/
inductive ValueArr where
  | nil
  | cons (v : Value) (rest : ValueArr)

/-- Modelled from the spec: an ordered field mapping from names to Values. -/
inductive ValueObj where
  | nil
  | cons (name : String) (v : Value) (rest : ValueObj)
end

/-- Modelled from the spec: the direction enum of an Attribute. -/
inductive Direction where
  | positive
  | negative
  | both
  | none
deriving DecidableEq, Repr

/-- Modelled from the spec: a named-attribute record holding a direction
(defaulting to none when unset) and arbitrary Value-typed fields. -/
structure Attribute where
  direction : Direction
  fields : ValueObj

/-- Modelled from the spec: the four geometry kinds. -/
inductive GeomType where
  | points
  | line
  | mesh
  | polygon
deriving DecidableEq, Repr

/-- Modelled from the spec: a 3D point with x, y and optional z (default 0),
coordinates carried as float bit patterns. -/
structure Point where
  x : FloatBits
  y : FloatBits
  z : FloatBits
deriving DecidableEq

/-- Modelled from the spec: one geometry primitive, a kind plus an ordered
sequence of 3D points. -/
structure Geometry where
  kind : GeomType
  coords : List Point
deriving DecidableEq

/-- Modelled from the spec: a feature owns a composite ID, geometry
primitives, a flat attribute object, named attribute layers and an ordered
list of child composite-ID references. -/
structure Feature where
  id : FeatureId
  geoms : List Geometry
  attrs : ValueObj
  attrLayers : List (String × List (String × Attribute))
  children : List FeatureId

/-- Modelled from the spec: the addressable Tile Feature Layer, identified by
(map-id, layer-id, tile-id), carrying the feature-type declarations it is
validated against and its ordered feature collection. -/
structure TileFeatureLayer where
  mapId : String
  layerId : String
  tileId : Nat
  featureTypes : List FeatureTypeDecl
  features : List Feature

/-- Modelled from the spec: errors raised synchronously by feature or
feature-ID construction. -/
inductive FeatureError where
  | unknownType
  | mismatchedComposition
deriving DecidableEq, Repr

/-- Look up a feature-type declaration by name. -/
def findType : List FeatureTypeDecl → String → Option FeatureTypeDecl
  | [], _ => none
  | d :: ds, n => if d.name = n then some d else findType ds n

/-- Modelled from the spec: tile.new_feature_id validates the supplied parts
against the schema for (tile.map_id, type_name) and on success returns the
composite feature ID without allocating a feature; it never dereferences the
ID against any tile contents. -/
def TileFeatureLayer.new_feature_id (t : TileFeatureLayer) (typeName : String)
    (parts : List (String × IdScalar)) : Except FeatureError FeatureId :=
  match findType t.featureTypes typeName with
  | Option.none => .error .unknownType
  | Option.some decl =>
    if validateId decl parts then
      .ok { mapId := t.mapId, typeName := typeName, parts := parts }
    else
      .error .mismatchedComposition

/-- Modelled from the spec: tile.new_feature validates the supplied parts
before constructing; on success the new feature is appended to the tile's
feature collection, on failure the tile is returned unchanged alongside the
error. -/
def TileFeatureLayer.new_feature (t : TileFeatureLayer) (typeName : String)
    (parts : List (String × IdScalar)) :
    Except FeatureError Feature × TileFeatureLayer :=
  match t.new_feature_id typeName parts with
  | .error e => (.error e, t)
  | .ok fid =>
    let f : Feature :=
      { id := fid, geoms := [], attrs := .nil, attrLayers := [], children := [] }
    (.ok f, { t with features := t.features ++ [f] })

theorem validateId_iff (decl : FeatureTypeDecl) (parts : List (String × IdScalar)) :
    validateId decl parts = true ↔
      ∃ comp ∈ decl.uniqueIdCompositions,
        List.Perm (comp.map declKey) (parts.map partKey) := by
  simp [validateId, List.any_eq_true, keysMatch_iff_perm]

/-- Example feature-type declaration from the spec's test scenario: type
"Way" with the single composition [(wayId, i64)]. -/
def wayDecl : FeatureTypeDecl :=
  { name := "Way", uniqueIdCompositions := [[{ partId := "wayId", datatype := .dI64 }]] }

/-- Example tile bound to the schema declaring only wayDecl. -/
def tileEx : TileFeatureLayer :=
  { mapId := "TestMap", layerId := "WayLayer", tileId := 2,
    featureTypes := [wayDecl], features := [] }

/-- C1: for every declared feature type, new_feature and new_feature_id
succeed if and only if the supplied parts match one declared unique-ID
composition by part name and datatype under order-insensitive multiset
equality, and any missing, extra or type-mismatched part yields the
MismatchedComposition error. -/
theorem new_feature_succeeds_iff_composition_matches
    (t : TileFeatureLayer) (typeName : String) (parts : List (String × IdScalar))
    (decl : FeatureTypeDecl) (h : findType t.featureTypes typeName = some decl) :
    ((∃ fid, t.new_feature_id typeName parts = .ok fid) ↔
      ∃ comp ∈ decl.uniqueIdCompositions,
        ((comp.map declKey : Multiset (String × Datatype)) =
          (parts.map partKey : Multiset (String × Datatype)))) ∧
    ((∃ f t', t.new_feature typeName parts = (.ok f, t')) ↔
      ∃ comp ∈ decl.uniqueIdCompositions,
        ((comp.map declKey : Multiset (String × Datatype)) =
          (parts.map partKey : Multiset (String × Datatype)))) ∧
    ((¬ ∃ comp ∈ decl.uniqueIdCompositions,
        ((comp.map declKey : Multiset (String × Datatype)) =
          (parts.map partKey : Multiset (String × Datatype)))) →
      t.new_feature_id typeName parts = .error .mismatchedComposition ∧
      (t.new_feature typeName parts).1 = .error .mismatchedComposition) := by
  have hspec : validateId decl parts = true ↔
      ∃ comp ∈ decl.uniqueIdCompositions,
        ((comp.map declKey : Multiset (String × Datatype)) =
          (parts.map partKey : Multiset (String × Datatype))) := by
    rw [validateId_iff]
    simp only [Multiset.coe_eq_coe]
  by_cases hv : validateId decl parts = true
  · refine ⟨?_, ?_, ?_⟩
    · simp only [TileFeatureLayer.new_feature_id, h, hv, if_true]
      simp
      exact (validateId_iff decl parts).mp hv
    · simp only [TileFeatureLayer.new_feature, TileFeatureLayer.new_feature_id, h, hv, if_true]
      simp
      exact (validateId_iff decl parts).mp hv
    · intro hc
      exact absurd (hspec.mp hv) hc
  · have hnoperm : ∀ comp ∈ decl.uniqueIdCompositions,
        ¬ List.Perm (comp.map declKey) (parts.map partKey) := by
      intro comp hc hperm
      exact hv ((validateId_iff decl parts).mpr ⟨comp, hc, hperm⟩)
    refine ⟨?_, ?_, ?_⟩
    · simp only [TileFeatureLayer.new_feature_id, h]
      rw [if_neg hv]
      simp
      exact hnoperm
    · simp only [TileFeatureLayer.new_feature, TileFeatureLayer.new_feature_id, h]
      rw [if_neg hv]
      simp
      exact hnoperm
    · intro _
      simp only [TileFeatureLayer.new_feature, TileFeatureLayer.new_feature_id, h]
      rw [if_neg hv]
      simp

/-- Witness for C1 at the spec's example scenario: on tileEx with the Way
declaration, supplying exactly the wayId part succeeds. -/
theorem new_feature_succeeds_iff_composition_matches_witness :
    ∃ fid, tileEx.new_feature_id "Way" [("wayId", IdScalar.i64 0)] = .ok fid :=
  ((new_feature_succeeds_iff_composition_matches tileEx "Way"
      [("wayId", IdScalar.i64 0)] wayDecl rfl).1).mpr
    ⟨[{ partId := "wayId", datatype := .dI64 }], by simp [wayDecl], by rfl⟩

/-- C6: when new_feature fails with MismatchedComposition or UnknownType, the
error is returned at construction time and the tile is unchanged: no feature
is added to its collection, so the caller can keep using the tile. -/
theorem new_feature_error_leaves_tile_unchanged
    (t : TileFeatureLayer) (typeName : String) (parts : List (String × IdScalar))
    (e : FeatureError) (h : (t.new_feature typeName parts).1 = .error e) :
    (t.new_feature typeName parts).2 = t ∧
    (t.new_feature typeName parts).2.features = t.features := by
  unfold TileFeatureLayer.new_feature at h ⊢
  cases hid : t.new_feature_id typeName parts with
  | error e' => simp [hid]
  | ok fid => simp [hid] at h

/-- Witness for C6: requesting the undeclared type "Lane" on tileEx fails and
leaves the tile exactly as it was. -/
theorem new_feature_error_leaves_tile_unchanged_witness :
    (tileEx.new_feature "Lane" [("laneId", IdScalar.i64 0)]).2 = tileEx ∧
    (tileEx.new_feature "Lane" [("laneId", IdScalar.i64 0)]).2.features = tileEx.features :=
  new_feature_error_leaves_tile_unchanged tileEx "Lane" [("laneId", IdScalar.i64 0)]
    .unknownType (by rfl)

/-- C7: for composition-valid parts, new_feature_id succeeds even when the
resulting composite ID matches no feature present in the tile — reference
validity is structural only and is never checked by dereferencing. -/
theorem new_feature_id_is_structural
    (t : TileFeatureLayer) (typeName : String) (parts : List (String × IdScalar))
    (decl : FeatureTypeDecl) (h1 : findType t.featureTypes typeName = some decl)
    (h2 : validateId decl parts = true)
    (_h3 : ∀ f ∈ t.features,
      f.id ≠ { mapId := t.mapId, typeName := typeName, parts := parts }) :
    t.new_feature_id typeName parts =
      .ok { mapId := t.mapId, typeName := typeName, parts := parts } := by
  simp [TileFeatureLayer.new_feature_id, h1, h2]

/-- Witness for C7: on tileEx, which holds no features at all, building an ID
for the absent way 7 succeeds. -/
theorem new_feature_id_is_structural_witness :
    tileEx.new_feature_id "Way" [("wayId", IdScalar.i64 7)] =
      .ok { mapId := "TestMap", typeName := "Way",
            parts := [("wayId", IdScalar.i64 7)] } :=
  new_feature_id_is_structural tileEx "Way" [("wayId", IdScalar.i64 7)] wayDecl
    (by rfl) (by rfl) (by intro f hf; simp [tileEx] at hf)

/-- Modelled from the spec: the error kinds a Data Source's produce call can
surface (spec sections 4.4 and 7). -/
inductive ProduceError where
  | notFound
  | productionFailed
  | unreachable
  | timeout
deriving DecidableEq, Repr

/-- Modelled from the spec: the per-tile-id error kinds a Request result can
carry (spec sections 4.5 and 7). -/
inductive RequestError where
  | unknownMapOrLayer
  | notFound
  | productionFailed
  | unreachable
  | timeout
deriving DecidableEq, Repr

/-- Lift a produce-side error into the request result error kinds. -/
def liftProduceError : ProduceError → RequestError
  | .notFound => .notFound
  | .productionFailed => .productionFailed
  | .unreachable => .unreachable
  | .timeout => .timeout

/-- Modelled from the spec: the uniform contract both Data Source variants
expose to the Service, produce(tile_id) returning a layer or an error. -/
structure DataSourceHandle where
  produce : Nat → Except ProduceError TileFeatureLayer

/-- Association-list lookup returning the first binding of a key. -/
def alistLookup {K V : Type} [DecidableEq K] : List (K × V) → K → Option V
  | [], _ => Option.none
  | e :: es, k => if e.1 = k then some e.2 else alistLookup es k

/-- Remove every binding of a key from an association list. -/
def alistRemove {K V : Type} [DecidableEq K] : List (K × V) → K → List (K × V)
  | [], _ => []
  | e :: es, k => if e.1 = k then alistRemove es k else e :: alistRemove es k

/-- Number of bindings of a key in an association list. -/
def countKey {K V : Type} [DecidableEq K] (c : List (K × V)) (k : K) : Nat :=
  c.countP fun e => decide (e.1 = k)

theorem alistLookup_cons {K V : Type} [DecidableEq K] (e : K × V) (es : List (K × V))
    (k : K) : alistLookup (e :: es) k = if e.1 = k then some e.2 else alistLookup es k :=
  rfl

theorem alistRemove_cons {K V : Type} [DecidableEq K] (e : K × V) (es : List (K × V))
    (k : K) :
    alistRemove (e :: es) k =
      if e.1 = k then alistRemove es k else e :: alistRemove es k :=
  rfl

theorem countKey_cons {K V : Type} [DecidableEq K] (e : K × V) (es : List (K × V))
    (k : K) :
    countKey (e :: es) k = (if e.1 = k then 1 else 0) + countKey es k := by
  unfold countKey
  rw [List.countP_cons]
  by_cases he : e.1 = k
  · simp [he, Nat.add_comm]
  · simp [he]

theorem alistLookup_none_countKey {K V : Type} [DecidableEq K]
    {c : List (K × V)} {k : K} (h : alistLookup c k = Option.none) :
    countKey c k = 0 := by
  induction c with
  | nil => rfl
  | cons e es ih =>
    rw [alistLookup_cons] at h
    by_cases he : e.1 = k
    · rw [if_pos he] at h
      cases h
    · rw [if_neg he] at h
      rw [countKey_cons, if_neg he, ih h]

/-- Modelled from the spec: idempotent cache insertion — a completion for a
key already cached is a no-op, not an error (spec section 5). -/
def cacheInsert {K V : Type} [DecidableEq K] (c : List (K × V)) (k : K) (v : V) :
    List (K × V) :=
  match alistLookup c k with
  | Option.some _ => c
  | Option.none => (k, v) :: c

/-- Modelled from the spec: the Service owns a registry from (map, layer) to
one Data Source handle and a cache from (map, layer, tile-id) to a produced
layer. -/
structure Service where
  registry : List ((String × String) × DataSourceHandle)
  cache : List ((String × String × Nat) × TileFeatureLayer)

/-- Modelled from the spec: register a Data Source for a (map, layer) pair;
a duplicate registration replaces the prior one (the warning log is a side
effect outside the model) rather than being rejected. -/
def Service.registerDatasource (reg : List ((String × String) × DataSourceHandle))
    (k : String × String) (d : DataSourceHandle) :
    List ((String × String) × DataSourceHandle) :=
  (k, d) :: alistRemove reg k

/-- Modelled from the spec: the per-tile-id state machine of section 4.5 —
cache lookup first, then registry resolution (absence is the terminal
UnknownMapOrLayer failure), then dispatch to the resolved source. -/
def Service.processTile (s : Service) (m l : String) (t : Nat) :
    Except RequestError TileFeatureLayer :=
  match alistLookup s.cache (m, l, t) with
  | Option.some layer => .ok layer
  | Option.none =>
    match alistLookup s.registry (m, l) with
    | Option.none => .error .unknownMapOrLayer
    | Option.some ds =>
      match ds.produce t with
      | .ok layer => .ok layer
      | .error e => .error (liftProduceError e)

/-- Modelled from the spec: process one tile-id and complete — on success the
produced layer is inserted into the cache, on failure the error is yielded
and the state is untouched. -/
def Service.stepTile (s : Service) (m l : String) (t : Nat) :
    (Nat × Except RequestError TileFeatureLayer) × Service :=
  match s.processTile m l t with
  | .ok layer =>
    ((t, .ok layer), { s with cache := cacheInsert s.cache (m, l, t) layer })
  | .error e => ((t, .error e), s)

/-- Modelled from the spec: run a Request over its tile-id batch, threading
the cache through the per-tile completions. -/
def Service.requestRun (s : Service) (m l : String) :
    List Nat → List (Nat × Except RequestError TileFeatureLayer) × Service
  | [] => ([], s)
  | t :: ts =>
    let step := s.stepTile m l t
    let rest := Service.requestRun step.2 m l ts
    (step.1 :: rest.1, rest.2)

/-- Modelled from the spec: the client-facing Request result, a per-tile-id
sequence of layer-or-error. -/
def Service.request (s : Service) (m l : String) (tids : List Nat) :
    List (Nat × Except RequestError TileFeatureLayer) :=
  (s.requestRun m l tids).1

/-- A service whose cache has only grown, relative to s0, by entries that
record successful productions for (m, l) keys. -/
def coherentWith (s0 s' : Service) (m l : String) : Prop :=
  s'.registry = s0.registry ∧
  ∀ t : Nat,
    alistLookup s'.cache (m, l, t) = alistLookup s0.cache (m, l, t) ∨
    (alistLookup s0.cache (m, l, t) = Option.none ∧
      ∃ layer, alistLookup s'.cache (m, l, t) = some layer ∧
        s0.processTile m l t = .ok layer)

theorem coherentWith_refl (s : Service) (m l : String) : coherentWith s s m l :=
  ⟨rfl, fun _ => Or.inl rfl⟩

theorem processTile_coherent {s0 s' : Service} {m l : String}
    (h : coherentWith s0 s' m l) (t : Nat) :
    s'.processTile m l t = s0.processTile m l t := by
  obtain ⟨hreg, hcache⟩ := h
  rcases hcache t with heq | ⟨hnone, layer, hsome, hprod⟩
  · unfold Service.processTile
    rw [heq, hreg]
  · unfold Service.processTile
    rw [hsome, hnone]
    unfold Service.processTile at hprod
    rw [hnone] at hprod
    exact hprod.symm

theorem stepTile_coherent {s0 s' : Service} {m l : String}
    (h : coherentWith s0 s' m l) (t : Nat) :
    coherentWith s0 (s'.stepTile m l t).2 m l := by
  obtain ⟨hreg, hcache⟩ := h
  unfold Service.stepTile
  cases hp : s'.processTile m l t with
  | error e => exact ⟨hreg, hcache⟩
  | ok layer =>
    refine ⟨hreg, fun t' => ?_⟩
    unfold cacheInsert
    cases hl : alistLookup s'.cache (m, l, t) with
    | some _ => exact hcache t'
    | none =>
      by_cases ht : t' = t
      · subst ht
        right
        have h0 : alistLookup s0.cache (m, l, t') = Option.none := by
          rcases hcache t' with heq | ⟨hnone, _, _, _⟩
          · rw [← heq]; exact hl
          · exact hnone
        refine ⟨h0, layer, ?_, ?_⟩
        · simp [alistLookup]
        · rw [← processTile_coherent ⟨hreg, hcache⟩ t', hp]
      · have hkey : ((m, l, t) : String × String × Nat) ≠ (m, l, t') := by
          intro hk
          exact ht (by injection hk with _ hk2; injection hk2 with _ hk3; exact hk3.symm)
        have : alistLookup (((m, l, t), layer) :: s'.cache) (m, l, t') =
            alistLookup s'.cache (m, l, t') := by
          simp [alistLookup, hkey]
        rw [this]
        exact hcache t'

theorem requestRun_map {s0 : Service} {m l : String} :
    ∀ (tids : List Nat) (s' : Service), coherentWith s0 s' m l →
      (s'.requestRun m l tids).1 =
        tids.map fun t => (t, s0.processTile m l t) := by
  intro tids
  induction tids with
  | nil => intro s' _; rfl
  | cons t ts ih =>
    intro s' hco
    unfold Service.requestRun
    simp only [List.map_cons]
    have h1 : (s'.stepTile m l t).1 = (t, s0.processTile m l t) := by
      unfold Service.stepTile
      rw [processTile_coherent hco t]
      cases s0.processTile m l t <;> rfl
    rw [h1, ih _ (stepTile_coherent hco t)]

/-- A minimal produced layer for tile t of the example map and layer. -/
def mkLayer (t : Nat) : TileFeatureLayer :=
  { mapId := "TestMap", layerId := "WayLayer", tileId := t,
    featureTypes := [], features := [] }

/-- A data source that fails production for tile-id 2 and succeeds on every
other tile-id. -/
def dsErr2 : DataSourceHandle :=
  { produce := fun t => if t = 2 then .error .productionFailed else .ok (mkLayer t) }

/-- A service with dsErr2 registered for ("TestMap", "WayLayer") and an empty
cache. -/
def svcBatch : Service :=
  { registry := [(("TestMap", "WayLayer"), dsErr2)], cache := [] }

/-- A service with an empty registry and an empty cache. -/
def svcEmpty : Service := { registry := [], cache := [] }

/-- A service holding tileEx in its cache under ("TestMap", "WayLayer", 2). -/
def svcCached : Service :=
  { registry := [], cache := [(("TestMap", "WayLayer", 2), tileEx)] }

/-- C2: per tile-id, a cache hit yields the cached layer as terminal success,
and a cache miss with no registry entry for (map, layer) yields the terminal
UnknownMapOrLayer failure for that tile-id alone; in particular, with no
registration at all, request("OtherMap", "L1", [5]) yields exactly
[(5, error(UnknownMapOrLayer))]. -/
theorem request_cache_hit_or_unknown_map_or_layer
    (s : Service) (m l : String) (t : Nat) (layer : TileFeatureLayer) :
    (alistLookup s.cache (m, l, t) = some layer → s.processTile m l t = .ok layer) ∧
    (alistLookup s.cache (m, l, t) = Option.none →
      alistLookup s.registry (m, l) = Option.none →
      s.processTile m l t = .error .unknownMapOrLayer) ∧
    svcEmpty.request "OtherMap" "L1" [5] = [(5, .error .unknownMapOrLayer)] := by
  refine ⟨?_, ?_, ?_⟩
  · intro h
    unfold Service.processTile
    rw [h]
  · intro h1 h2
    unfold Service.processTile
    rw [h1, h2]
  · rfl

/-- Witness for C2: the cached layer under ("TestMap", "WayLayer", 2) is
yielded directly. -/
theorem request_cache_hit_or_unknown_map_or_layer_witness :
    svcCached.processTile "TestMap" "WayLayer" 2 = .ok tileEx :=
  (request_cache_hit_or_unknown_map_or_layer svcCached "TestMap" "WayLayer" 2 tileEx).1
    (by rfl)

/-- C3: a Request's result is a per-tile-id sequence in which each entry
depends only on that tile-id and the initial service state, so a production
error for one tile-id never removes or alters the results of its siblings;
concretely, a batch [1, 2, 3] whose source errors on 2 still succeeds for 1
and 3. -/
theorem request_isolates_tile_errors (s : Service) (m l : String) (tids : List Nat) :
    s.request m l tids = (tids.map fun t => (t, s.processTile m l t)) ∧
    svcBatch.request "TestMap" "WayLayer" [1, 2, 3] =
      [(1, .ok (mkLayer 1)), (2, .error .productionFailed), (3, .ok (mkLayer 3))] := by
  constructor
  · exact requestRun_map tids s (coherentWith_refl s m l)
  · rfl

/-- C4: inserting a completed layer for a key already cached is a no-op, not
an error — two inserts for one fresh key leave exactly one entry, and a
reader of that key sees the fully-formed first layer. -/
theorem cache_insert_idempotent
    (c : List ((String × String × Nat) × TileFeatureLayer))
    (k : String × String × Nat) (layer1 layer2 : TileFeatureLayer)
    (h : alistLookup c k = Option.none) :
    cacheInsert (cacheInsert c k layer1) k layer2 = cacheInsert c k layer1 ∧
    alistLookup (cacheInsert (cacheInsert c k layer1) k layer2) k = some layer1 ∧
    countKey (cacheInsert (cacheInsert c k layer1) k layer2) k = 1 := by
  have hins : cacheInsert c k layer1 = (k, layer1) :: c := by
    unfold cacheInsert
    rw [h]
  have hlook : alistLookup ((k, layer1) :: c) k = some layer1 := by
    simp [alistLookup]
  have hnoop : cacheInsert (cacheInsert c k layer1) k layer2 = cacheInsert c k layer1 := by
    rw [hins]
    unfold cacheInsert
    rw [hlook]
  refine ⟨hnoop, ?_, ?_⟩
  · rw [hnoop, hins, hlook]
  · rw [hnoop, hins, countKey_cons, if_pos rfl, alistLookup_none_countKey h]

/-- Witness for C4: double insertion under the fresh key
("TestMap", "WayLayer", 2) into the empty cache. -/
theorem cache_insert_idempotent_witness :
    cacheInsert (cacheInsert ([] : List ((String × String × Nat) × TileFeatureLayer))
        ("TestMap", "WayLayer", 2) tileEx) ("TestMap", "WayLayer", 2) (mkLayer 2) =
      cacheInsert [] ("TestMap", "WayLayer", 2) tileEx ∧
    alistLookup (cacheInsert (cacheInsert ([] : List ((String × String × Nat) × TileFeatureLayer))
        ("TestMap", "WayLayer", 2) tileEx) ("TestMap", "WayLayer", 2) (mkLayer 2))
      ("TestMap", "WayLayer", 2) = some tileEx ∧
    countKey (cacheInsert (cacheInsert ([] : List ((String × String × Nat) × TileFeatureLayer))
        ("TestMap", "WayLayer", 2) tileEx) ("TestMap", "WayLayer", 2) (mkLayer 2))
      ("TestMap", "WayLayer", 2) = 1 :=
  cache_insert_idempotent [] ("TestMap", "WayLayer", 2) tileEx (mkLayer 2) (by rfl)

theorem alistRemove_lookup_ne {K V : Type} [DecidableEq K]
    (reg : List (K × V)) (k k' : K) (h : k' ≠ k) :
    alistLookup (alistRemove reg k) k' = alistLookup reg k' := by
  induction reg with
  | nil => rfl
  | cons e es ih =>
    rw [alistRemove_cons, alistLookup_cons]
    by_cases he : e.1 = k
    · rw [if_pos he, if_neg (by rw [he]; exact fun hk => h hk.symm), ih]
    · rw [if_neg he, alistLookup_cons]
      by_cases he' : e.1 = k'
      · rw [if_pos he', if_pos he']
      · rw [if_neg he', if_neg he', ih]

theorem countKey_alistRemove {K V : Type} [DecidableEq K]
    (reg : List (K × V)) (k : K) : countKey (alistRemove reg k) k = 0 := by
  induction reg with
  | nil => rfl
  | cons e es ih =>
    rw [alistRemove_cons]
    by_cases he : e.1 = k
    · rw [if_pos he]; exact ih
    · rw [if_neg he, countKey_cons, if_neg he, ih]

/-- C8: registering a Data Source for a (map, layer) pair that is already
registered succeeds and replaces the prior registration — afterwards the
registry maps that pair to the new source only, and every other pair is
untouched. -/
theorem register_duplicate_replaces
    (reg : List ((String × String) × DataSourceHandle)) (k : String × String)
    (dOld dNew : DataSourceHandle) (_h : alistLookup reg k = some dOld) :
    alistLookup (Service.registerDatasource reg k dNew) k = some dNew ∧
    countKey (Service.registerDatasource reg k dNew) k = 1 ∧
    ∀ k', k' ≠ k →
      alistLookup (Service.registerDatasource reg k dNew) k' = alistLookup reg k' := by
  refine ⟨?_, ?_, ?_⟩
  · unfold Service.registerDatasource
    rw [alistLookup_cons, if_pos rfl]
  · unfold Service.registerDatasource
    rw [countKey_cons, if_pos rfl, countKey_alistRemove]
  · intro k' hk
    unfold Service.registerDatasource
    rw [alistLookup_cons, if_neg (fun hkk => hk hkk.symm)]
    exact alistRemove_lookup_ne reg k k' hk

/-- A placeholder data source standing for the previously registered
producer. -/
def dsOld : DataSourceHandle := { produce := fun _ => .error .notFound }

/-- Witness for C8: re-registering ("m", "l") moves the binding from dsOld to
dsErr2. -/
theorem register_duplicate_replaces_witness :
    alistLookup (Service.registerDatasource [(("m", "l"), dsOld)] ("m", "l") dsErr2)
      ("m", "l") = some dsErr2 :=
  (register_duplicate_replaces [(("m", "l"), dsOld)] ("m", "l") dsOld dsErr2 (by rfl)).1

/-- Translated from libs/pymapget/main: Python str.split with an explicit
one-character separator, as used by ds.split(":") and args.server.split(":");
every occurrence of the separator splits, and adjacent separators yield empty
fields, so a string with n separators yields n + 1 fields. -/
def pySplit (sep : Char) : List Char → List (List Char)
  | [] => [[]]
  | c :: cs =>
    if c = sep then [] :: pySplit sep cs
    else
      match pySplit sep cs with
      | [] => [[c]]
      | r :: rs => (c :: r) :: rs

/-- Number of occurrences of a character in a character list. -/
def countChar (sep : Char) : List Char → Nat
  | [] => 0
  | c :: cs => (if c = sep then 1 else 0) + countChar sep cs

theorem pySplit_ne_nil (sep : Char) (l : List Char) : pySplit sep l ≠ [] := by
  cases l with
  | nil => simp [pySplit]
  | cons c cs =>
    unfold pySplit
    by_cases hc : c = sep
    · simp [hc]
    · rw [if_neg hc]
      cases pySplit sep cs <;> simp

theorem pySplit_length (sep : Char) (l : List Char) :
    (pySplit sep l).length = countChar sep l + 1 := by
  induction l with
  | nil => rfl
  | cons c cs ih =>
    unfold pySplit countChar
    by_cases hc : c = sep
    · simp [hc, ih, Nat.add_comm]
    · rw [if_neg hc, if_neg hc]
      cases h : pySplit sep cs with
      | nil => exact absurd h (pySplit_ne_nil sep cs)
      | cons r rs =>
        rw [h] at ih
        simpa using ih

theorem pySplit_no_sep (sep : Char) (l : List Char) (h : ∀ c ∈ l, c ≠ sep) :
    pySplit sep l = [l] := by
  induction l with
  | nil => rfl
  | cons c cs ih =>
    unfold pySplit
    rw [if_neg (h c (List.mem_cons_self c cs)), ih fun x hx => h x (List.mem_cons_of_mem c hx)]

theorem pySplit_append (sep : Char) (a t : List Char) (ha : ∀ c ∈ a, c ≠ sep)
    (r : List Char) (rs : List (List Char)) (ht : pySplit sep t = r :: rs) :
    pySplit sep (a ++ t) = (a ++ r) :: rs := by
  induction a with
  | nil => simpa using ht
  | cons c cs ih =>
    have hc : c ≠ sep := ha c (List.mem_cons_self c cs)
    have ih2 := ih fun x hx => ha x (List.mem_cons_of_mem c hx)
    simp only [List.cons_append]
    unfold pySplit
    rw [if_neg hc, ih2]

/-- Translated from libs/pymapget/main: the destructuring
host, port = s.split(":") common to serve and fetch — it succeeds only when
the split yields exactly two fields. -/
def parseHostPort (s : List Char) : Option (List Char × List Char) :=
  match pySplit ':' s with
  | [h, p] => some (h, p)
  | _ => Option.none

/-- Value of a decimal digit string, most significant digit first. -/
def decimalValue (l : List Char) : Nat :=
  l.foldl (fun acc c => 10 * acc + (c.toNat - Char.toNat '0')) 0

/-- Translated from libs/pymapget/main: int(port) on the second field,
modelled on canonical decimal digit strings (the only shape the claim
covers). -/
def pyIntDigits (p : List Char) : Option Nat :=
  if p ≠ [] ∧ p.all Char.isDigit then some (decimalValue p) else Option.none

/-- Translated from libs/pymapget/main: the full address handling of one
datasource or server argument — destructure on ":" and convert the port
before it is handed to add_remote_datasource or Client. -/
def parseAddress (s : List Char) : Option (List Char × Nat) :=
  match parseHostPort s with
  | Option.none => Option.none
  | some (h, p) =>
    match pyIntDigits p with
    | Option.none => Option.none
    | some n => some (h, n)

/-- Translated from libs/pymapget/main: the serve loop over the datasource
arguments — each address is destructured before its registration, and a
failing destructure raises, so the failing address (and everything after it)
registers nothing. -/
def serveRegistrations : List (List Char) → List (List Char × Nat)
  | [] => []
  | a :: rest =>
    match parseAddress a with
    | Option.none => []
    | some hp => hp :: serveRegistrations rest

theorem parseHostPort_isSome_iff (s : List Char) :
    (parseHostPort s).isSome = true ↔ countChar ':' s = 1 := by
  unfold parseHostPort
  have hlen := pySplit_length ':' s
  cases h : pySplit ':' s with
  | nil => exact absurd h (pySplit_ne_nil ':' s)
  | cons r rs =>
    rw [h] at hlen
    cases rs with
    | nil =>
      simp at hlen
      simp
      omega
    | cons r2 rs2 =>
      cases rs2 with
      | nil =>
        simp at hlen
        simp
        omega
      | cons r3 rs3 =>
        simp at hlen
        simp
        omega

/-- C9: the CLI parses every address argument by splitting on ":" and
destructuring into exactly (host, port): the destructure succeeds iff the
string contains exactly one colon (a bare hostname or an IPv6 literal fails
before any registration or connection is attempted, and a failing datasource
argument registers nothing), and with exactly one colon and a decimal port
the host and port are passed on unchanged. -/
theorem cli_address_split (s h p : List Char) :
    ((parseHostPort s).isSome = true ↔ countChar ':' s = 1) ∧
    ((∀ c ∈ h, c ≠ ':') → (∀ c ∈ p, c ≠ ':') →
      parseHostPort (h ++ ':' :: p) = some (h, p)) ∧
    ((∀ c ∈ h, c ≠ ':') → p ≠ [] → p.all Char.isDigit = true →
      parseAddress (h ++ ':' :: p) = some (h, decimalValue p)) ∧
    (countChar ':' s ≠ 1 → ∀ rest, serveRegistrations (s :: rest) = []) := by
  have hsplit : ∀ h2 p2 : List Char, (∀ c ∈ h2, c ≠ ':') → (∀ c ∈ p2, c ≠ ':') →
      pySplit ':' (h2 ++ ':' :: p2) = [h2, p2] := by
    intro h2 p2 hh hp
    have ht : pySplit ':' (':' :: p2) = [] :: [p2] := by
      unfold pySplit
      rw [if_pos rfl, pySplit_no_sep ':' p2 hp]
    have := pySplit_append ':' h2 (':' :: p2) hh [] [p2] ht
    simpa using this
  refine ⟨parseHostPort_isSome_iff s, ?_, ?_, ?_⟩
  · intro hh hp
    unfold parseHostPort
    rw [hsplit h p hh hp]
  · intro hh hne hdig
    have hp : ∀ c ∈ p, c ≠ ':' := by
      intro c hc he
      have := List.all_eq_true.mp hdig c hc
      rw [he] at this
      simp [Char.isDigit] at this
    have h1 : parseHostPort (h ++ ':' :: p) = some (h, p) := by
      unfold parseHostPort
      rw [hsplit h p hh hp]
    have h2 : pyIntDigits p = some (decimalValue p) := by
      unfold pyIntDigits
      rw [if_pos ⟨hne, hdig⟩]
    unfold parseAddress
    rw [h1]
    show (match pyIntDigits p with
      | Option.none => Option.none
      | some n => some (h, n)) = some (h, decimalValue p)
    rw [h2]
  · intro hcnt rest
    unfold serveRegistrations
    have hnone : parseAddress s = Option.none := by
      unfold parseAddress
      cases hph : parseHostPort s with
      | none => rfl
      | some hp =>
        have : (parseHostPort s).isSome = true := by rw [hph]; rfl
        exact absurd ((parseHostPort_isSome_iff s).mp this) hcnt
    rw [hnone]

/-- Witness for C9: the address localhost:8080 destructures and converts to
the host "localhost" with port 8080, while the bare name "localhost" (no
colon) fails and registers nothing. -/
theorem cli_address_split_witness :
    parseAddress ("localhost".toList ++ ':' :: "8080".toList) =
      some ("localhost".toList, decimalValue "8080".toList) ∧
    serveRegistrations ["localhost".toList] = [] := by
  constructor
  · exact (cli_address_split [] "localhost".toList "8080".toList).2.2.1
      (by decide) (by decide) (by decide)
  · exact (cli_address_split "localhost".toList [] []).2.2.2 (by decide) []

/-- Translated from libs/pymapget/main: the Request object the fetch command
builds, mapget.Request(args.map, args.layer, list(map(int, args.tile))). -/
structure FetchRequest where
  map : String
  layer : String
  tiles : List Int
deriving DecidableEq, Repr

/-- Translated from libs/pymapget/main, fetch: the requests issued to the
client — one single Request carrying the whole tile list, guarded by the
non-emptiness test on args.tile. -/
def fetchRequests (m l : String) (tiles : List Int) : List FetchRequest :=
  if tiles.isEmpty then [] else [{ map := m, layer := l, tiles := tiles }]

/-- Translated from libs/pymapget/main, fetch: one geojson document printed
per yielded result, in the order the result sequence yields them. -/
def fetchOutputs {R : Type} (requestFn : FetchRequest → List R) (geojson : R → String)
    (m l : String) (tiles : List Int) : List String :=
  if tiles.isEmpty then []
  else (requestFn { map := m, layer := l, tiles := tiles }).map geojson

/-- C10: for a non-empty tile list the fetch command issues exactly one
Request carrying the (map, layer) pair and the whole tile-id list in command
line order — never one request per tile-id — and prints one GeoJSON document
per yielded result in yield order. -/
theorem fetch_single_request_in_order {R : Type} (requestFn : FetchRequest → List R)
    (geojson : R → String) (m l : String) (tiles : List Int) (h : tiles ≠ []) :
    fetchRequests m l tiles = [{ map := m, layer := l, tiles := tiles }] ∧
    (fetchRequests m l tiles).length = 1 ∧
    fetchOutputs requestFn geojson m l tiles =
      (requestFn { map := m, layer := l, tiles := tiles }).map geojson := by
  have hne : tiles.isEmpty = false := by
    cases tiles with
    | nil => exact absurd rfl h
    | cons t ts => rfl
  refine ⟨?_, ?_, ?_⟩ <;> simp [fetchRequests, fetchOutputs, hne]

/-- Witness for C10: fetching tiles [1, 2] issues the single request with
both tiles in order and prints the per-result documents in order. -/
theorem fetch_single_request_in_order_witness :
    fetchRequests "TestMap" "WayLayer" [1, 2] =
      [{ map := "TestMap", layer := "WayLayer", tiles := [1, 2] }] ∧
    (fetchRequests "TestMap" "WayLayer" [1, 2]).length = 1 ∧
    fetchOutputs (fun r => r.tiles) (fun _ => "doc") "TestMap" "WayLayer" [1, 2] =
      ((fun (r : FetchRequest) => r.tiles)
        { map := "TestMap", layer := "WayLayer", tiles := [1, 2] }).map (fun _ => "doc") :=
  fetch_single_request_in_order (fun r => r.tiles) (fun _ => "doc")
    "TestMap" "WayLayer" [1, 2] (by decide)

/-- Modelled from the spec: the atomic items of the native binary encoding of
a Tile Feature Layer; the concrete byte framing is internal to the compiled
core, so the stream is modelled at token granularity. -/
inductive Tok where
  | tnat (n : Nat)
  | tint (i : Int)
  | tstr (s : String)
  | tbool (b : Bool)
deriving DecidableEq, Repr

/-- Encode a natural number as one token. -/
def encNat (n : Nat) : List Tok := [.tnat n]

/-- Decode a natural number token. -/
def decNat : Nat → List Tok → Option (Nat × List Tok)
  | _, .tnat n :: r => some (n, r)
  | _, _ => Option.none

/-- Encode an integer as one token. -/
def encInt (i : Int) : List Tok := [.tint i]

/-- Decode an integer token. -/
def decInt : Nat → List Tok → Option (Int × List Tok)
  | _, .tint i :: r => some (i, r)
  | _, _ => Option.none

/-- Encode a string as one token. -/
def encStr (s : String) : List Tok := [.tstr s]

/-- Decode a string token. -/
def decStr : Nat → List Tok → Option (String × List Tok)
  | _, .tstr s :: r => some (s, r)
  | _, _ => Option.none

/-- Encode a boolean as one token. -/
def encBool (b : Bool) : List Tok := [.tbool b]

/-- Decode a boolean token. -/
def decBool : Nat → List Tok → Option (Bool × List Tok)
  | _, .tbool b :: r => some (b, r)
  | _, _ => Option.none

/-- A decoder inverts an encoder: on any stream that starts with an encoded
value, and with fuel at least the encoding length, it returns that value and
the rest of the stream. -/
def DecodesTo {α : Type} (e : α → List Tok)
    (d : Nat → List Tok → Option (α × List Tok)) : Prop :=
  ∀ (x : α) (fuel : Nat) (rest : List Tok),
    (e x).length ≤ fuel → d fuel (e x ++ rest) = some (x, rest)

theorem decodesTo_nat : DecodesTo encNat decNat := fun _ _ _ _ => rfl

theorem decodesTo_int : DecodesTo encInt decInt := fun _ _ _ _ => rfl

theorem decodesTo_str : DecodesTo encStr decStr := fun _ _ _ _ => rfl

theorem decodesTo_bool : DecodesTo encBool decBool := fun _ _ _ _ => rfl

/-- Encode a pair by concatenating the component encodings. -/
def encPair {α β : Type} (ea : α → List Tok) (eb : β → List Tok) (x : α × β) :
    List Tok :=
  ea x.1 ++ eb x.2

/-- Decode a pair componentwise. -/
def decPair {α β : Type} (da : Nat → List Tok → Option (α × List Tok))
    (db : Nat → List Tok → Option (β × List Tok)) (fuel : Nat) (ts : List Tok) :
    Option ((α × β) × List Tok) :=
  match da fuel ts with
  | some (a, r1) =>
    match db fuel r1 with
    | some (b, r2) => some ((a, b), r2)
    | Option.none => Option.none
  | Option.none => Option.none

theorem decodesTo_pair {α β : Type} {ea : α → List Tok} {eb : β → List Tok}
    {da : Nat → List Tok → Option (α × List Tok)}
    {db : Nat → List Tok → Option (β × List Tok)}
    (ha : DecodesTo ea da) (hb : DecodesTo eb db) :
    DecodesTo (encPair ea eb) (decPair da db) := by
  intro x fuel rest hf
  obtain ⟨a, b⟩ := x
  unfold encPair at hf ⊢
  dsimp only at hf
  rw [List.length_append] at hf
  rw [List.append_assoc]
  unfold decPair
  rw [ha a fuel (eb b ++ rest) (by omega)]
  show (match db fuel (eb b ++ rest) with
    | some (b, r2) => some ((a, b), r2)
    | Option.none => Option.none) = some ((a, b), rest)
  rw [hb b fuel rest (by omega)]

/-- Encode a list as a cons-tagged sequence: tag 1 before each element, tag 0
at the end. -/
def encListT {α : Type} (e : α → List Tok) : List α → List Tok
  | [] => [.tnat 0]
  | x :: xs => .tnat 1 :: (e x ++ encListT e xs)

/-- Decode a cons-tagged list, spending one unit of fuel per tag. -/
def decListT {α : Type} (d : Nat → List Tok → Option (α × List Tok)) :
    Nat → List Tok → Option (List α × List Tok)
  | _, .tnat 0 :: r => some ([], r)
  | fuel + 1, .tnat 1 :: r =>
    match d fuel r with
    | some (x, r1) =>
      match decListT d fuel r1 with
      | some (xs, r2) => some (x :: xs, r2)
      | Option.none => Option.none
    | Option.none => Option.none
  | _, _ => Option.none

theorem decodesTo_list {α : Type} {e : α → List Tok}
    {d : Nat → List Tok → Option (α × List Tok)} (hd : DecodesTo e d) :
    DecodesTo (encListT e) (decListT d) := by
  intro xs
  induction xs with
  | nil => intro fuel rest _; cases fuel <;> rfl
  | cons x xs ih =>
    intro fuel rest hf
    unfold encListT at hf ⊢
    rw [List.length_cons, List.length_append] at hf
    cases fuel with
    | zero => omega
    | succ f =>
      rw [List.cons_append, List.append_assoc]
      have hstep : decListT d (f + 1) (.tnat 1 :: (e x ++ (encListT e xs ++ rest))) =
          match d f (e x ++ (encListT e xs ++ rest)) with
          | some (x1, r1) =>
            match decListT d f r1 with
            | some (xs1, r2) => some (x1 :: xs1, r2)
            | Option.none => Option.none
          | Option.none => Option.none := rfl
      rw [hstep, hd x f (encListT e xs ++ rest) (by omega)]
      show (match decListT d f (encListT e xs ++ rest) with
        | some (xs1, r2) => some (x :: xs1, r2)
        | Option.none => Option.none) = some (x :: xs, rest)
      rw [ih f rest (by omega)]

/-- Decode with a base decoder and rebuild a value through f. -/
def decMap {α β : Type} (f : α → β) (d : Nat → List Tok → Option (α × List Tok))
    (fuel : Nat) (ts : List Tok) : Option (β × List Tok) :=
  match d fuel ts with
  | some (a, r) => some (f a, r)
  | Option.none => Option.none

theorem decodesTo_comp {α β : Type} {ea : α → List Tok}
    {da : Nat → List Tok → Option (α × List Tok)} (ha : DecodesTo ea da)
    (g : β → α) (f : α → β) (hfg : ∀ b, f (g b) = b) :
    DecodesTo (fun b => ea (g b)) (decMap f da) := by
  intro b fuel rest hf
  unfold decMap
  rw [ha (g b) fuel rest hf]
  show some (f (g b), rest) = some (b, rest)
  rw [hfg]

/-- Encode one supplied identity-part scalar, tag plus payload. -/
def encScalar : IdScalar → List Tok
  | .str s => [.tnat 0, .tstr s]
  | .i32 v => [.tnat 1, .tint v]
  | .i64 v => [.tnat 2, .tint v]
  | .u32 v => [.tnat 3, .tnat v]
  | .u64 v => [.tnat 4, .tnat v]
  | .boolean b => [.tnat 5, .tbool b]

/-- Decode one supplied identity-part scalar. -/
def decScalar : Nat → List Tok → Option (IdScalar × List Tok)
  | _, .tnat 0 :: .tstr s :: r => some (.str s, r)
  | _, .tnat 1 :: .tint v :: r => some (.i32 v, r)
  | _, .tnat 2 :: .tint v :: r => some (.i64 v, r)
  | _, .tnat 3 :: .tnat v :: r => some (.u32 v, r)
  | _, .tnat 4 :: .tnat v :: r => some (.u64 v, r)
  | _, .tnat 5 :: .tbool b :: r => some (.boolean b, r)
  | _, _ => Option.none

theorem decodesTo_scalar : DecodesTo encScalar decScalar := by
  intro x fuel rest _
  cases x <;> rfl

/-- Encode a composite feature ID: map id, type name, then the named parts. -/
def encFid (id : FeatureId) : List Tok :=
  encPair encStr (encPair encStr (encListT (encPair encStr encScalar)))
    (id.mapId, (id.typeName, id.parts))

/-- Decode a composite feature ID. -/
def decFid : Nat → List Tok → Option (FeatureId × List Tok) :=
  decMap (fun x => { mapId := x.1, typeName := x.2.1, parts := x.2.2 })
    (decPair decStr (decPair decStr (decListT (decPair decStr decScalar))))

theorem decodesTo_fid : DecodesTo encFid decFid :=
  decodesTo_comp
    (decodesTo_pair decodesTo_str
      (decodesTo_pair decodesTo_str
        (decodesTo_list (decodesTo_pair decodesTo_str decodesTo_scalar))))
    (fun (id : FeatureId) => (id.mapId, (id.typeName, id.parts)))
    (fun x => ({ mapId := x.1, typeName := x.2.1, parts := x.2.2 } : FeatureId))
    (fun _ => rfl)

mutual
/-- Encode a compound value, one tag token per constructor. -/
def encV : Value → List Tok
  | .vnull => [.tnat 0]
  | .vbool b => [.tnat 1, .tbool b]
  | .vint i => [.tnat 2, .tint i]
  | .vfloat bits => [.tnat 3, .tnat bits]
  | .vstr s => [.tnat 4, .tstr s]
  | .vref id => .tnat 5 :: encFid id
  | .varr a => .tnat 6 :: encA a
  | .vobj o => .tnat 7 :: encO o

/-- Encode a value array as a cons-tagged sequence. -/
def encA : ValueArr → List Tok
  | .nil => [.tnat 0]
  | .cons v rest => .tnat 1 :: (encV v ++ encA rest)

/-- Encode a field mapping as a cons-tagged sequence of named values. -/
def encO : ValueObj → List Tok
  | .nil => [.tnat 0]
  | .cons name v rest => .tnat 1 :: .tstr name :: (encV v ++ encO rest)
end

mutual
/-- Decode a compound value, spending fuel on each recursive step. -/
def decV : Nat → List Tok → Option (Value × List Tok)
  | _, .tnat 0 :: r => some (.vnull, r)
  | _, .tnat 1 :: .tbool b :: r => some (.vbool b, r)
  | _, .tnat 2 :: .tint i :: r => some (.vint i, r)
  | _, .tnat 3 :: .tnat bits :: r => some (.vfloat bits, r)
  | _, .tnat 4 :: .tstr s :: r => some (.vstr s, r)
  | fuel + 1, .tnat 5 :: r =>
    match decFid fuel r with
    | some (id, r1) => some (.vref id, r1)
    | Option.none => Option.none
  | fuel + 1, .tnat 6 :: r =>
    match decA fuel r with
    | some (a, r1) => some (.varr a, r1)
    | Option.none => Option.none
  | fuel + 1, .tnat 7 :: r =>
    match decO fuel r with
    | some (o, r1) => some (.vobj o, r1)
    | Option.none => Option.none
  | _, _ => Option.none

/-- Decode a value array. -/
def decA : Nat → List Tok → Option (ValueArr × List Tok)
  | _, .tnat 0 :: r => some (.nil, r)
  | fuel + 1, .tnat 1 :: r =>
    match decV fuel r with
    | some (v, r1) =>
      match decA fuel r1 with
      | some (a, r2) => some (.cons v a, r2)
      | Option.none => Option.none
    | Option.none => Option.none
  | _, _ => Option.none

/-- Decode a field mapping. -/
def decO : Nat → List Tok → Option (ValueObj × List Tok)
  | _, .tnat 0 :: r => some (.nil, r)
  | fuel + 1, .tnat 1 :: .tstr name :: r =>
    match decV fuel r with
    | some (v, r1) =>
      match decO fuel r1 with
      | some (o, r2) => some (.cons name v o, r2)
      | Option.none => Option.none
    | Option.none => Option.none
  | _, _ => Option.none
end

mutual
theorem decV_encV : ∀ (v : Value) (fuel : Nat) (rest : List Tok),
    (encV v).length ≤ fuel → decV fuel (encV v ++ rest) = some (v, rest)
  | .vnull => by intro fuel rest _; cases fuel <;> rfl
  | .vbool b => by intro fuel rest _; cases fuel <;> rfl
  | .vint i => by intro fuel rest _; cases fuel <;> rfl
  | .vfloat bits => by intro fuel rest _; cases fuel <;> rfl
  | .vstr s => by intro fuel rest _; cases fuel <;> rfl
  | .vref id => by
    intro fuel rest hf
    simp only [encV, List.length_cons] at hf
    cases fuel with
    | zero => omega
    | succ f =>
      simp only [encV, List.cons_append]
      have hstep : decV (f + 1) (.tnat 5 :: (encFid id ++ rest)) =
          match decFid f (encFid id ++ rest) with
          | some (id1, r1) => some (.vref id1, r1)
          | Option.none => Option.none := rfl
      rw [hstep, decodesTo_fid id f rest (by omega)]
  | .varr a => by
    intro fuel rest hf
    simp only [encV, List.length_cons] at hf
    cases fuel with
    | zero => omega
    | succ f =>
      simp only [encV, List.cons_append]
      have hstep : decV (f + 1) (.tnat 6 :: (encA a ++ rest)) =
          match decA f (encA a ++ rest) with
          | some (a1, r1) => some (.varr a1, r1)
          | Option.none => Option.none := rfl
      rw [hstep, decA_encA a f rest (by omega)]
  | .vobj o => by
    intro fuel rest hf
    simp only [encV, List.length_cons] at hf
    cases fuel with
    | zero => omega
    | succ f =>
      simp only [encV, List.cons_append]
      have hstep : decV (f + 1) (.tnat 7 :: (encO o ++ rest)) =
          match decO f (encO o ++ rest) with
          | some (o1, r1) => some (.vobj o1, r1)
          | Option.none => Option.none := rfl
      rw [hstep, decO_encO o f rest (by omega)]

theorem decA_encA : ∀ (a : ValueArr) (fuel : Nat) (rest : List Tok),
    (encA a).length ≤ fuel → decA fuel (encA a ++ rest) = some (a, rest)
  | .nil => by intro fuel rest _; cases fuel <;> rfl
  | .cons v a => by
    intro fuel rest hf
    simp only [encA, List.length_cons, List.length_append] at hf
    cases fuel with
    | zero => omega
    | succ f =>
      simp only [encA, List.cons_append, List.append_assoc]
      have hstep : decA (f + 1) (.tnat 1 :: (encV v ++ (encA a ++ rest))) =
          match decV f (encV v ++ (encA a ++ rest)) with
          | some (v1, r1) =>
            match decA f r1 with
            | some (a1, r2) => some (.cons v1 a1, r2)
            | Option.none => Option.none
          | Option.none => Option.none := rfl
      rw [hstep, decV_encV v f (encA a ++ rest) (by omega)]
      show (match decA f (encA a ++ rest) with
        | some (a1, r2) => some (ValueArr.cons v a1, r2)
        | Option.none => Option.none) = some (.cons v a, rest)
      rw [decA_encA a f rest (by omega)]

theorem decO_encO : ∀ (o : ValueObj) (fuel : Nat) (rest : List Tok),
    (encO o).length ≤ fuel → decO fuel (encO o ++ rest) = some (o, rest)
  | .nil => by intro fuel rest _; cases fuel <;> rfl
  | .cons name v o => by
    intro fuel rest hf
    simp only [encO, List.length_cons, List.length_append] at hf
    cases fuel with
    | zero => omega
    | succ f =>
      simp only [encO, List.cons_append, List.append_assoc]
      have hstep : decO (f + 1) (.tnat 1 :: .tstr name :: (encV v ++ (encO o ++ rest))) =
          match decV f (encV v ++ (encO o ++ rest)) with
          | some (v1, r1) =>
            match decO f r1 with
            | some (o1, r2) => some (.cons name v1 o1, r2)
            | Option.none => Option.none
          | Option.none => Option.none := rfl
      rw [hstep, decV_encV v f (encO o ++ rest) (by omega)]
      show (match decO f (encO o ++ rest) with
        | some (o1, r2) => some (ValueObj.cons name v o1, r2)
        | Option.none => Option.none) = some (.cons name v o, rest)
      rw [decO_encO o f rest (by omega)]
end

theorem decodesTo_value : DecodesTo encV decV := decV_encV

theorem decodesTo_valueObj : DecodesTo encO decO := decO_encO

/-- Encode a composition-part datatype tag. -/
def encDatatype : Datatype → List Tok
  | .dString => [.tnat 0]
  | .dI32 => [.tnat 1]
  | .dI64 => [.tnat 2]
  | .dU32 => [.tnat 3]
  | .dU64 => [.tnat 4]
  | .dBool => [.tnat 5]

/-- Decode a composition-part datatype tag. -/
def decDatatype : Nat → List Tok → Option (Datatype × List Tok)
  | _, .tnat 0 :: r => some (.dString, r)
  | _, .tnat 1 :: r => some (.dI32, r)
  | _, .tnat 2 :: r => some (.dI64, r)
  | _, .tnat 3 :: r => some (.dU32, r)
  | _, .tnat 4 :: r => some (.dU64, r)
  | _, .tnat 5 :: r => some (.dBool, r)
  | _, _ => Option.none

theorem decodesTo_datatype : DecodesTo encDatatype decDatatype := by
  intro x fuel rest _
  cases x <;> rfl

/-- Encode an attribute direction tag. -/
def encDirection : Direction → List Tok
  | .positive => [.tnat 0]
  | .negative => [.tnat 1]
  | .both => [.tnat 2]
  | .none => [.tnat 3]

/-- Decode an attribute direction tag. -/
def decDirection : Nat → List Tok → Option (Direction × List Tok)
  | _, .tnat 0 :: r => some (.positive, r)
  | _, .tnat 1 :: r => some (.negative, r)
  | _, .tnat 2 :: r => some (.both, r)
  | _, .tnat 3 :: r => some (.none, r)
  | _, _ => Option.none

theorem decodesTo_direction : DecodesTo encDirection decDirection := by
  intro x fuel rest _
  cases x <;> rfl

/-- Encode a geometry kind tag. -/
def encGeomType : GeomType → List Tok
  | .points => [.tnat 0]
  | .line => [.tnat 1]
  | .mesh => [.tnat 2]
  | .polygon => [.tnat 3]

/-- Decode a geometry kind tag. -/
def decGeomType : Nat → List Tok → Option (GeomType × List Tok)
  | _, .tnat 0 :: r => some (.points, r)
  | _, .tnat 1 :: r => some (.line, r)
  | _, .tnat 2 :: r => some (.mesh, r)
  | _, .tnat 3 :: r => some (.polygon, r)
  | _, _ => Option.none

theorem decodesTo_geomType : DecodesTo encGeomType decGeomType := by
  intro x fuel rest _
  cases x <;> rfl

/-- Encode a 3D point as its three coordinate bit patterns. -/
def encPoint (p : Point) : List Tok :=
  encPair encNat (encPair encNat encNat) (p.x, (p.y, p.z))

/-- Decode a 3D point. -/
def decPoint : Nat → List Tok → Option (Point × List Tok) :=
  decMap (fun x => { x := x.1, y := x.2.1, z := x.2.2 })
    (decPair decNat (decPair decNat decNat))

theorem decodesTo_point : DecodesTo encPoint decPoint :=
  decodesTo_comp (decodesTo_pair decodesTo_nat (decodesTo_pair decodesTo_nat decodesTo_nat))
    (fun (p : Point) => (p.x, (p.y, p.z)))
    (fun x => ({ x := x.1, y := x.2.1, z := x.2.2 } : Point))
    (fun _ => rfl)

/-- Encode one geometry primitive: its kind and its point sequence. -/
def encGeometry (g : Geometry) : List Tok :=
  encPair encGeomType (encListT encPoint) (g.kind, g.coords)

/-- Decode one geometry primitive. -/
def decGeometry : Nat → List Tok → Option (Geometry × List Tok) :=
  decMap (fun x => { kind := x.1, coords := x.2 })
    (decPair decGeomType (decListT decPoint))

theorem decodesTo_geometry : DecodesTo encGeometry decGeometry :=
  decodesTo_comp (decodesTo_pair decodesTo_geomType (decodesTo_list decodesTo_point))
    (fun (g : Geometry) => (g.kind, g.coords))
    (fun x => ({ kind := x.1, coords := x.2 } : Geometry))
    (fun _ => rfl)

/-- Encode an attribute: its direction and its value fields. -/
def encAttribute (a : Attribute) : List Tok :=
  encPair encDirection encO (a.direction, a.fields)

/-- Decode an attribute. -/
def decAttribute : Nat → List Tok → Option (Attribute × List Tok) :=
  decMap (fun x => { direction := x.1, fields := x.2 })
    (decPair decDirection decO)

theorem decodesTo_attribute : DecodesTo encAttribute decAttribute :=
  decodesTo_comp (decodesTo_pair decodesTo_direction decodesTo_valueObj)
    (fun (a : Attribute) => (a.direction, a.fields))
    (fun x => ({ direction := x.1, fields := x.2 } : Attribute))
    (fun _ => rfl)

/-- Encode the named attribute layers of a feature. -/
def encALayers : List (String × List (String × Attribute)) → List Tok :=
  encListT (encPair encStr (encListT (encPair encStr encAttribute)))

/-- Decode the named attribute layers of a feature. -/
def decALayers : Nat → List Tok → Option (List (String × List (String × Attribute)) × List Tok) :=
  decListT (decPair decStr (decListT (decPair decStr decAttribute)))

theorem decodesTo_alayers : DecodesTo encALayers decALayers :=
  decodesTo_list (decodesTo_pair decodesTo_str
    (decodesTo_list (decodesTo_pair decodesTo_str decodesTo_attribute)))

/-- Encode a feature: ID, geometries, flat attributes, attribute layers and
children. -/
def encFeature (f : Feature) : List Tok :=
  encPair encFid (encPair (encListT encGeometry) (encPair encO
      (encPair encALayers (encListT encFid))))
    (f.id, (f.geoms, (f.attrs, (f.attrLayers, f.children))))

/-- Decode a feature. -/
def decFeature : Nat → List Tok → Option (Feature × List Tok) :=
  decMap
    (fun x => { id := x.1, geoms := x.2.1, attrs := x.2.2.1,
                attrLayers := x.2.2.2.1, children := x.2.2.2.2 })
    (decPair decFid (decPair (decListT decGeometry) (decPair decO
      (decPair decALayers (decListT decFid)))))

theorem decodesTo_feature : DecodesTo encFeature decFeature :=
  decodesTo_comp
    (decodesTo_pair decodesTo_fid (decodesTo_pair (decodesTo_list decodesTo_geometry)
      (decodesTo_pair decodesTo_valueObj
        (decodesTo_pair decodesTo_alayers (decodesTo_list decodesTo_fid)))))
    (fun (f : Feature) => (f.id, (f.geoms, (f.attrs, (f.attrLayers, f.children)))))
    (fun x => ({ id := x.1, geoms := x.2.1, attrs := x.2.2.1,
                 attrLayers := x.2.2.2.1, children := x.2.2.2.2 } : Feature))
    (fun _ => rfl)

/-- Encode one declared composition part. -/
def encIdPartDecl (d : IdPartDecl) : List Tok :=
  encPair encStr encDatatype (d.partId, d.datatype)

/-- Decode one declared composition part. -/
def decIdPartDecl : Nat → List Tok → Option (IdPartDecl × List Tok) :=
  decMap (fun x => { partId := x.1, datatype := x.2 })
    (decPair decStr decDatatype)

theorem decodesTo_idPartDecl : DecodesTo encIdPartDecl decIdPartDecl :=
  decodesTo_comp (decodesTo_pair decodesTo_str decodesTo_datatype)
    (fun (d : IdPartDecl) => (d.partId, d.datatype))
    (fun x => ({ partId := x.1, datatype := x.2 } : IdPartDecl))
    (fun _ => rfl)

/-- Encode one feature-type declaration. -/
def encFTDecl (d : FeatureTypeDecl) : List Tok :=
  encPair encStr (encListT (encListT encIdPartDecl)) (d.name, d.uniqueIdCompositions)

/-- Decode one feature-type declaration. -/
def decFTDecl : Nat → List Tok → Option (FeatureTypeDecl × List Tok) :=
  decMap (fun x => { name := x.1, uniqueIdCompositions := x.2 })
    (decPair decStr (decListT (decListT decIdPartDecl)))

theorem decodesTo_ftDecl : DecodesTo encFTDecl decFTDecl :=
  decodesTo_comp
    (decodesTo_pair decodesTo_str (decodesTo_list (decodesTo_list decodesTo_idPartDecl)))
    (fun (d : FeatureTypeDecl) => (d.name, d.uniqueIdCompositions))
    (fun x => ({ name := x.1, uniqueIdCompositions := x.2 } : FeatureTypeDecl))
    (fun _ => rfl)

/-- Modelled from the spec: serialize a whole Tile Feature Layer to the
native binary token stream — identity triple, schema declarations, then the
feature collection. -/
def serializeBinary (layer : TileFeatureLayer) : List Tok :=
  encPair encStr (encPair encStr (encPair encNat
      (encPair (encListT encFTDecl) (encListT encFeature))))
    (layer.mapId, (layer.layerId, (layer.tileId, (layer.featureTypes, layer.features))))

/-- Decode a whole Tile Feature Layer. -/
def decLayer : Nat → List Tok → Option (TileFeatureLayer × List Tok) :=
  decMap
    (fun x => { mapId := x.1, layerId := x.2.1, tileId := x.2.2.1,
                featureTypes := x.2.2.2.1, features := x.2.2.2.2 })
    (decPair decStr (decPair decStr (decPair decNat
      (decPair (decListT decFTDecl) (decListT decFeature)))))

theorem decodesTo_layer : DecodesTo serializeBinary decLayer :=
  decodesTo_comp
    (decodesTo_pair decodesTo_str (decodesTo_pair decodesTo_str (decodesTo_pair decodesTo_nat
      (decodesTo_pair (decodesTo_list decodesTo_ftDecl) (decodesTo_list decodesTo_feature)))))
    (fun (layer : TileFeatureLayer) =>
      (layer.mapId, (layer.layerId, (layer.tileId, (layer.featureTypes, layer.features)))))
    (fun x => ({ mapId := x.1, layerId := x.2.1, tileId := x.2.2.1,
                 featureTypes := x.2.2.2.1, features := x.2.2.2.2 } : TileFeatureLayer))
    (fun _ => rfl)

/-- Modelled from the spec: deserialize the native binary encoding, requiring
the stream to be consumed exactly. -/
def deserializeBinary (ts : List Tok) : Option TileFeatureLayer :=
  match decLayer ts.length ts with
  | some (layer, []) => some layer
  | _ => Option.none

/-- Modelled from the spec: the JSON document tree of the wire interface. -/
inductive Json where
  | jnull
  | jbool (b : Bool)
  | jint (i : Int)
  | jstr (s : String)
  | jarr (elems : List Json)
  | jobj (fields : List (String × Json))

/-- Render one binary token as a JSON node. -/
def jsonOfTok : Tok → Json
  | .tnat n => .jint (n : Int)
  | .tint i => .jobj [("i", .jint i)]
  | .tstr s => .jstr s
  | .tbool b => .jbool b

/-- Read one binary token back from a JSON node. -/
def tokOfJson : Json → Option Tok
  | .jint n => some (.tnat n.toNat)
  | .jobj [(tag, .jint i)] => if tag = "i" then some (.tint i) else Option.none
  | .jstr s => some (.tstr s)
  | .jbool b => some (.tbool b)
  | _ => Option.none

theorem tokOfJson_jsonOfTok (t : Tok) : tokOfJson (jsonOfTok t) = some t := by
  cases t with
  | tnat n => simp [jsonOfTok, tokOfJson]
  | tint i => simp [jsonOfTok, tokOfJson]
  | tstr s => rfl
  | tbool b => rfl

/-- Read a token sequence back from a list of JSON nodes. -/
def toksOfJsonList : List Json → Option (List Tok)
  | [] => some []
  | j :: js =>
    match tokOfJson j with
    | some t =>
      match toksOfJsonList js with
      | some ts => some (t :: ts)
      | Option.none => Option.none
    | Option.none => Option.none

theorem toksOfJsonList_map (ts : List Tok) :
    toksOfJsonList (ts.map jsonOfTok) = some ts := by
  induction ts with
  | nil => rfl
  | cons t ts ih =>
    simp only [List.map_cons]
    unfold toksOfJsonList
    rw [tokOfJson_jsonOfTok, ih]

/-- Modelled from the spec: the JSON serialization of a Tile Feature Layer —
the binary token stream rendered as a JSON array. -/
def serializeJson (layer : TileFeatureLayer) : Json :=
  .jarr ((serializeBinary layer).map jsonOfTok)

/-- Modelled from the spec: deserialize the JSON encoding. -/
def deserializeJson : Json → Option TileFeatureLayer
  | .jarr elems =>
    match toksOfJsonList elems with
    | some ts => deserializeBinary ts
    | Option.none => Option.none
  | _ => Option.none

/-- C5: serializing any Tile Feature Layer to binary or to JSON and
deserializing that encoding reproduces the layer exactly — equal feature
set, equal geometries and equal attribute values, with reference values
compared structurally by their composite-ID fields. -/
theorem serialize_roundtrip (layer : TileFeatureLayer) :
    deserializeBinary (serializeBinary layer) = some layer ∧
    deserializeJson (serializeJson layer) = some layer := by
  have hbin : deserializeBinary (serializeBinary layer) = some layer := by
    have h := decodesTo_layer layer (serializeBinary layer).length [] (le_refl _)
    rw [List.append_nil] at h
    unfold deserializeBinary
    rw [h]
  refine ⟨hbin, ?_⟩
  unfold serializeJson deserializeJson
  show (match toksOfJsonList ((serializeBinary layer).map jsonOfTok) with
    | some ts => deserializeBinary ts
    | Option.none => Option.none) = some layer
  rw [toksOfJsonList_map]
  exact hbin

end Mapget
